import Mathlib

/-!
Verification of the Peregrine front-end parser (src/Peregrine/parser/parser.py,
src/Peregrine/parser/ast.py, src/Peregrine/lexer/tokens.py).

The Python code is shallowly embedded: the parser's mutable cursor state is
threaded explicitly through a `ParserState` record, Python exceptions
(AttributeError on a missing attribute, KeyError on a missing dict key,
UnboundLocalError on an unassigned local) are modelled with `Except PyErr`,
and the parser's recursion is made total with an explicit fuel parameter —
`PyErr.outOfFuel` marks a computation that did not complete within the given
fuel, so a run that yields `outOfFuel` for every fuel value never terminates
in the source.
-/

namespace Peregrine

/-- TokenType from src/Peregrine/lexer/tokens.py (an IntEnum; the numeric
values are irrelevant to the parser except through `Precedence`, which is
modelled separately).  Note that tokens.py defines `tk_cppcode` and NOT
`tk_ccode`, although parser.py line 157 refers to `TokenType.tk_ccode`. -/
inductive TokenType where
  | tk_plus
  | tk_minus
  | tk_divide
  | tk_asterisk
  | tk_xor
  | tk_modulo
  | tk_greater
  | tk_less
  | tk_ampersand
  | tk_bit_or
  | tk_bit_not
  | tk_assign
  | tk_excl
  | tk_colon
  | tk_dot
  | tk_l_paren
  | tk_r_paren
  | tk_hashtag
  | tk_comma
  | tk_exponent
  | tk_equal
  | tk_not_equal
  | tk_floor
  | tk_gr_or_equ
  | tk_less_or_equ
  | tk_increment
  | tk_decrement
  | tk_arrow
  | tk_shift_right
  | tk_shift_left
  | tk_floor_equal
  | tk_plus_equal
  | tk_minus_equal
  | tk_times_equal
  | tk_slash_equal
  | tk_mod_equal
  | tk_shift_right_equal
  | tk_shift_left_equal
  | tk_bit_and_equal
  | tk_bit_or_equal
  | tk_bit_xor_equal
  | tk_identifier
  | tk_true
  | tk_false
  | tk_none
  | tk_const
  | tk_import
  | tk_cppimport
  | tk_himport
  | tk_if
  | tk_else
  | tk_elif
  | tk_while
  | tk_for
  | tk_break
  | tk_continue
  | tk_match
  | tk_extern
  | tk_case
  | tk_default
  | tk_def
  | tk_pass
  | tk_return
  | tk_and
  | tk_or
  | tk_not
  | tk_is
  | tk_in
  | tk_cppcode
  | tk_class
  | tk_struct
  | tk_str
  | tk_bool
  | tk_char
  | tk_float
  | tk_float32
  | tk_void
  | tk_int
  | tk_int32
  | tk_int16
  | tk_int8
  | tk_uint32
  | tk_uint16
  | tk_uint8
  | tk_uint
  | decimal
  | integer
  | cpp
  | array
  | dictionary
  | string
  | tk_ident
  | tk_dedent
  | tk_raw
  | tk_format
deriving DecidableEq

/-- Token from src/Peregrine/lexer/tokens.py.  The `tab` field is annotated
`float` in the source but is never read by the parser; it is modelled as a
Nat. -/
structure Token where
  keyword : String
  index : Nat
  line : Nat
  tk_type : TokenType
  tab : Nat
deriving DecidableEq

/-- The Precedence IntEnum of parser.py, lines 14-21.  `auto()` assigns the
consecutive values 1..7; comparisons in the parser go through these values.
The highest level is named pr_prefix in the source (unary minus). -/
inductive Precedence where
  | pr_lowest
  | pr_and
  | pr_not
  | pr_equal
  | pr_sum
  | pr_mul
  | pr_unary
deriving DecidableEq

/-- The IntEnum value of each precedence level. -/
def Precedence.val : Precedence → Nat
  | .pr_lowest => 1
  | .pr_and => 2
  | .pr_not => 3
  | .pr_equal => 4
  | .pr_sum => 5
  | .pr_mul => 6
  | .pr_unary => 7

/-- precedenceMap, parser.py lines 23-41.  A Python dict; lookup of a key not
in the map is distinguished here by `none`. -/
def precedenceMap : TokenType → Option Precedence
  | .tk_and => some .pr_and
  | .tk_or => some .pr_and
  | .tk_not => some .pr_not
  | .tk_equal => some .pr_equal
  | .tk_not_equal => some .pr_equal
  | .tk_greater => some .pr_equal
  | .tk_less => some .pr_equal
  | .tk_gr_or_equ => some .pr_equal
  | .tk_less_or_equ => some .pr_equal
  | .tk_plus => some .pr_sum
  | .tk_minus => some .pr_sum
  | .tk_asterisk => some .pr_mul
  | .tk_divide => some .pr_mul
  | _ => none

/-- LangTypes, parser.py lines 43-58. -/
def LangTypes : List TokenType :=
  [ .tk_str, .tk_bool, .tk_char, .tk_float, .tk_float32, .tk_void,
    .tk_int, .tk_int32, .tk_int16, .tk_int8,
    .tk_uint32, .tk_uint16, .tk_uint8, .tk_uint ]

/-- Modelled from the spec: the Location type consumed from errors/errors.py
(not present under src/): "a Location type bundling (line, column, filename,
source-line text)". -/
structure Location where
  line : Nat
  index : Nat
  filename : String
  codeBlock : String
deriving DecidableEq

/-- Modelled from the spec: the Diagnostics record consumed from
errors/errors.py (not present under src/): "a Diagnostics type providing
new(location, title, message, hint, code)". -/
structure PEError where
  loc : Location
  title : String
  message : String
  hint : String
  code : String
deriving DecidableEq

/-- AST nodes from src/Peregrine/parser/ast.py.  ast.py defines Program,
IntegerLiteral, StringLiteral, BoolLiteral, Identifier, BinaryOperation and
PrefixExpression.  The parser also constructs `ast.VariableReassignment` and
`ast.VariableDeclaration`, which ast.py does NOT define; those two variants
are modelled from the spec: "`VariableDeclaration` (declared type token,
name, optional initializer expression node), `VariableReassignment` (target
name, new-value expression node)".  `pyNone` stands for the Python value
None, which the unimplemented statement parsers (parseIf, parseWhile, ...)
return. -/
inductive Node where
  | Program (nodes : List Node)
  | IntegerLiteral (value : String)
  | StringLiteral (value : String)
  | BoolLiteral (value : Bool)
  | Identifier (value : String)
  | BinaryOperation (left : Node) (operator : String) (right : Node)
  | PrefixExpression (prefixOp : String) (value : Node)
  | VariableReassignment (target : String) (newValue : Node)
  | VariableDeclaration (varType : Token) (name : String) (value : Option Node)
  | pyNone

mutual
/-- The textual rendering of a node (the chain of `__str__` methods in
ast.py).  ast.py gives no rendering for the two modelled declaration node
shapes (their classes are missing there); they render as "" here and no
theorem below depends on their rendering. -/
def render : Node → String
  | .Program nodes => renderList nodes
  | .IntegerLiteral value => value
  | .StringLiteral value => value
  | .BoolLiteral value => if value then "true" else "false"
  | .Identifier value => value
  | .BinaryOperation left operator right =>
      "(" ++ render left ++ " " ++ operator ++ " " ++ render right ++ ")"
  | .PrefixExpression prefixOp value => "(" ++ prefixOp ++ render value ++ ")"
  | .VariableReassignment _ _ => ""
  | .VariableDeclaration _ _ _ => ""
  | .pyNone => "None"

/-- Program.__str__ concatenates the renderings of the member nodes. -/
def renderList : List Node → String
  | [] => ""
  | n :: rest => render n ++ renderList rest
end

/-- Python runtime exceptions raised by the parser, plus `outOfFuel`, which
is not a Python exception: it marks that the fuel bound was reached, i.e.
the source would still be running. -/
inductive PyErr where
  | attributeError
  | keyError
  | unboundLocalError
  | outOfFuel
deriving DecidableEq

/-- The class-level (hence shared across instances) mutable lists of the
Python code: `Parser.errors` (parser.py line 64) and `Program.nodes`
(ast.py line 14).  Both are class attributes initialised to `[]` and only
ever mutated in place with `append`, so every Parser instance shares one
errors list and every Program instance shares one nodes list. -/
structure Globals where
  progNodes : List Node
  errors : List PEError

/-- A fresh Python interpreter: both shared class-level lists are empty. -/
def Globals.empty : Globals := { progNodes := [], errors := [] }

/-- The state of one Parser instance (parser.py lines 60-70) together with
the shared class-level lists it reads and mutates.  `tk_index` is the
cursor, `current_token` is unset (`none`) until the first advance. -/
structure ParserState where
  tk_index : Nat
  filename : String
  tokens : List Token
  errors : List PEError
  current_token : Option Token
  progNodes : List Node

/-- Parser.advance, parser.py lines 104-109: a no-op once the cursor has
reached the end, otherwise it moves `current_token` onto the cursor's token
and increments the cursor. -/
def advance (st : ParserState) : ParserState :=
  if h : st.tokens.length ≤ st.tk_index then st
  else
    { st with
      current_token := some (st.tokens.get ⟨st.tk_index, by omega⟩),
      tk_index := st.tk_index + 1 }

/-- Parser.nextToken, parser.py lines 118-122. -/
def nextToken (st : ParserState) : Option Token :=
  if st.tk_index < st.tokens.length then st.tokens[st.tk_index]? else none

/-- Parser.expect, parser.py lines 111-115.  On a tag mismatch the body is
`pass  # panic`: nothing is recorded and the parser advances exactly as in
the matching case.  When there is no next token, `self.nextToken().tk_type`
raises AttributeError on None.  Parser.error (lines 88-101), which would
append a PEError to the shared errors list, is never called here (nor
anywhere else in parser.py). -/
def expect (tokenType : TokenType) (st : ParserState) : Except PyErr ParserState :=
  match nextToken st with
  | none => .error .attributeError
  | some t =>
      if t.tk_type ≠ tokenType then
        .ok (advance st)   -- pass  # panic
      else
        .ok (advance st)

/-- Parser.nextPrecedence, parser.py lines 124-128. -/
def nextPrecedence (st : ParserState) : Precedence :=
  match nextToken st with
  | some t =>
      match precedenceMap t.tk_type with
      | some p => p
      | none => .pr_lowest
  | none => .pr_lowest

/-- Reading self.current_token before the first advance has set it raises
AttributeError. -/
def currentTok (st : ParserState) : Except PyErr Token :=
  match st.current_token with
  | some t => .ok t
  | none => .error .attributeError

/-- Parser.parseInteger, parser.py lines 166-167. -/
def parseInteger (st : ParserState) : Except PyErr Node :=
  match currentTok st with
  | .error e => .error e
  | .ok ct => .ok (.IntegerLiteral ct.keyword)

/-- Parser.parseString, parser.py lines 169-170. -/
def parseString (st : ParserState) : Except PyErr Node :=
  match currentTok st with
  | .error e => .error e
  | .ok ct => .ok (.StringLiteral ct.keyword)

/-- Parser.parseBool, parser.py lines 172-173. -/
def parseBool (st : ParserState) : Except PyErr Node :=
  match currentTok st with
  | .error e => .error e
  | .ok ct => .ok (.BoolLiteral (decide (ct.tk_type = TokenType.tk_true)))

/-- Parser.parseIdentifier, parser.py lines 175-176. -/
def parseIdentifier (st : ParserState) : Except PyErr Node :=
  match currentTok st with
  | .error e => .error e
  | .ok ct => .ok (.Identifier ct.keyword)

mutual
/-- Parser.parseExpression, parser.py lines 207-232, with an explicit fuel
bound on the recursion depth.  The primary dispatch treats tk_int, tk_str
and tk_bool tagged tokens as the integer, string and boolean literals; a
token starting no primary falls into the `else: print(...); pass` branch,
leaving the local `left` unassigned, so the following use of `left` raises
UnboundLocalError. -/
def parseExpressionF : Nat → Nat → ParserState → Except PyErr (Node × ParserState)
  | 0, _, _ => .error .outOfFuel
  | Nat.succ fuel, precedence, st =>
    match st.current_token with
    | none => .error .attributeError
    | some ct =>
      let primary : Except PyErr (Node × ParserState) :=
        if ct.tk_type = TokenType.tk_int then
          match parseInteger st with
          | .error e => .error e
          | .ok n => .ok (n, st)
        else if ct.tk_type = TokenType.tk_str then
          match parseString st with
          | .error e => .error e
          | .ok n => .ok (n, st)
        else if ct.tk_type = TokenType.tk_bool then
          match parseBool st with
          | .error e => .error e
          | .ok n => .ok (n, st)
        else if ct.tk_type = TokenType.tk_identifier then
          match parseIdentifier st with
          | .error e => .error e
          | .ok n => .ok (n, st)
        else if ct.tk_type = TokenType.tk_l_paren then
          parseGroupedExpressionF fuel st
        else if ct.tk_type = TokenType.tk_minus then
          parsePrefixExpressionF fuel st
        else
          .error .unboundLocalError
      Except.bind primary (fun x => climbF fuel precedence x.1 x.2)
termination_by structural fuel => fuel

/-- The while loop of parseExpression (parser.py lines 227-231): while the
next token's precedence strictly exceeds `precedence`, advance onto the
operator and fold it into `left` via parseBinaryOperation. -/
def climbF : Nat → Nat → Node → ParserState → Except PyErr (Node × ParserState)
  | 0, _, _, _ => .error .outOfFuel
  | Nat.succ fuel, precedence, left, st =>
    if (nextPrecedence st).val > precedence then
      Except.bind (parseBinaryOperationF fuel (advance st) left)
        (fun x => climbF fuel precedence x.1 x.2)
    else
      .ok (left, st)
termination_by structural fuel => fuel

/-- Parser.parseBinaryOperation, parser.py lines 178-186: looks up the
current operator's precedence (KeyError if the token is not in the map),
records its lexeme, advances, and parses the right operand at the
operator's own precedence. -/
def parseBinaryOperationF : Nat → ParserState → Node → Except PyErr (Node × ParserState)
  | 0, _, _ => .error .outOfFuel
  | Nat.succ fuel, st, left =>
    match st.current_token with
    | none => .error .attributeError
    | some ct =>
      match precedenceMap ct.tk_type with
      | none => .error .keyError
      | some currentPrecedence =>
        Except.bind (parseExpressionF fuel currentPrecedence.val (advance st))
          (fun x => .ok (.BinaryOperation left ct.keyword x.1, x.2))
termination_by structural fuel => fuel

/-- Parser.parseGroupedExpression, parser.py lines 198-205.  Note that the
leading advance is a no-op at end of stream, so the inner parseExpression
re-reads the same current token. -/
def parseGroupedExpressionF : Nat → ParserState → Except PyErr (Node × ParserState)
  | 0, _ => .error .outOfFuel
  | Nat.succ fuel, st =>
    Except.bind (parseExpressionF fuel Precedence.pr_lowest.val (advance st))
      (fun x =>
        match expect TokenType.tk_r_paren x.2 with
        | .error e => .error e
        | .ok st3 => .ok (x.1, st3))
termination_by structural fuel => fuel

/-- Parser.parsePrefixExpression, parser.py lines 188-195. -/
def parsePrefixExpressionF : Nat → ParserState → Except PyErr (Node × ParserState)
  | 0, _ => .error .outOfFuel
  | Nat.succ fuel, st =>
    match st.current_token with
    | none => .error .attributeError
    | some ct =>
      Except.bind (parseExpressionF fuel Precedence.pr_unary.val (advance st))
        (fun x => .ok (.PrefixExpression ct.keyword x.1, x.2))
termination_by structural fuel => fuel
end

/-- Parser.parseVariableReassignment, parser.py lines 234-243: reads the
identifier, advances twice, and then evaluates `Precedence.pr_lowestr` —
an attribute the Precedence enum does not have (the enum defines
pr_lowest), so the call raises AttributeError before parseExpression can
run. -/
def parseVariableReassignmentF (st : ParserState) : Except PyErr (Node × ParserState) :=
  match st.current_token with
  | none => .error .attributeError
  | some _ => .error .attributeError

/-- Parser.parseVariableDeclaration, parser.py lines 245-261.  The
"uninitialized variable" early return fires only when a next token EXISTS
and is not tk_assign (`if self.nextToken() and ...`); when the name is the
last token, nextToken() is None (falsy) and control falls through to the
initialized path, whose two advances are then no-ops. -/
def parseVariableDeclarationF (fuel : Nat) (st : ParserState) :
    Except PyErr (Node × ParserState) :=
  match st.current_token with
  | none => .error .attributeError
  | some varType =>
    match expect TokenType.tk_identifier st with
    | .error e => .error e
    | .ok st1 =>
      match st1.current_token with
      | none => .error .attributeError
      | some nameTok =>
        let name := nameTok.keyword
        let uninitGuard : Bool :=
          match nextToken st1 with
          | some t => decide (t.tk_type ≠ TokenType.tk_assign)
          | none => false
        if uninitGuard then
          .ok (.VariableDeclaration varType name none, st1)
        else
          Except.bind
            (parseExpressionF fuel Precedence.pr_lowest.val (advance (advance st1)))
            (fun x => .ok (.VariableDeclaration varType name (some x.1), x.2))

/-- Parser.parseIf, parser.py lines 263-264: `pass`, i.e. returns None. -/
def parseIfF (st : ParserState) : Except PyErr (Node × ParserState) :=
  .ok (.pyNone, st)

/-- Parser.parseWhile, parser.py lines 266-267. -/
def parseWhileF (st : ParserState) : Except PyErr (Node × ParserState) :=
  .ok (.pyNone, st)

/-- Parser.parseFor, parser.py lines 269-270. -/
def parseForF (st : ParserState) : Except PyErr (Node × ParserState) :=
  .ok (.pyNone, st)

/-- Parser.parseMatch, parser.py lines 272-273. -/
def parseMatchF (st : ParserState) : Except PyErr (Node × ParserState) :=
  .ok (.pyNone, st)

/-- Parser.parseFunctionDeclaration, parser.py lines 275-276. -/
def parseFunctionDeclarationF (st : ParserState) : Except PyErr (Node × ParserState) :=
  .ok (.pyNone, st)

/-- Parser.parseStatement, parser.py lines 130-164.  In the identifier
branch there is no `else`: when the next token is not tk_assign the
expression IS parsed, but the resulting newNode is immediately overwritten
by the unconditional `newNode = self.parseVariableReassignment()`.  After
the tk_def test the source compares against `TokenType.tk_ccode`, an
attribute tokens.py does not define, so every remaining token kind raises
AttributeError there and the final expression-statement `else` is
unreachable. -/
def parseStatementF (fuel : Nat) (st : ParserState) : Except PyErr (Node × ParserState) :=
  match st.current_token with
  | none => .error .attributeError
  | some ct =>
    if ct.tk_type = TokenType.tk_identifier then
      let preliminary : Except PyErr ParserState :=
        match nextToken st with
        | some t =>
          if t.tk_type ≠ TokenType.tk_assign then
            Except.bind (parseExpressionF fuel Precedence.pr_lowest.val st)
              (fun x => .ok x.2)
          else .ok st
        | none => .ok st
      Except.bind preliminary (fun st1 => parseVariableReassignmentF st1)
    else if ct.tk_type ∈ LangTypes then
      parseVariableDeclarationF fuel st
    else if ct.tk_type = TokenType.tk_if then parseIfF st
    else if ct.tk_type = TokenType.tk_while then parseWhileF st
    else if ct.tk_type = TokenType.tk_for then parseForF st
    else if ct.tk_type = TokenType.tk_match then parseMatchF st
    else if ct.tk_type = TokenType.tk_def then parseFunctionDeclarationF st
    else
      .error .attributeError   -- TokenType.tk_ccode does not exist

/-- The while loop of Parser.parse, parser.py lines 75-77: while the cursor
is not exhausted, parse one statement, append it to the (shared)
Program.nodes list, and advance. -/
def parseLoopF : Nat → ParserState → Except PyErr ParserState
  | 0, _ => .error .outOfFuel
  | Nat.succ fuel, st =>
    if st.tk_index < st.tokens.length then
      Except.bind (parseStatementF fuel st)
        (fun x => parseLoopF fuel (advance { x.2 with progNodes := x.2.progNodes ++ [x.1] }))
    else
      .ok st
termination_by structural fuel => fuel

/-- The observable outcome of Parser.parse: either the Program node is
returned to the caller, or every recorded diagnostic is displayed and the
process exits with status 1 (parser.py lines 79-86). -/
inductive ParseResult where
  | success (program : Node)
  | failureExit (displayed : List PEError) (exitCode : Nat)

/-- Parser.parse, parser.py lines 72-86.  `programNode = ast.Program()`
starts from the shared class-level nodes list; after the loop, a non-empty
errors list makes parse display every error and exit(1), otherwise the
Program node is returned. -/
def parseF (fuel : Nat) (st : ParserState) : Except PyErr (ParseResult × ParserState) :=
  Except.bind (parseLoopF fuel st)
    (fun stFinal =>
      if stFinal.errors.length ≠ 0 then
        .ok (.failureExit stFinal.errors 1, stFinal)
      else
        .ok (.success (.Program stFinal.progNodes), stFinal))

/-- Parser.__init__, parser.py lines 67-70: stores the tokens and filename,
picks up the shared class-level lists, and advances once. -/
def initParser (g : Globals) (filename : String) (tokens : List Token) : ParserState :=
  advance
    { tk_index := 0, filename := filename, tokens := tokens,
      errors := g.errors, current_token := none, progNodes := g.progNodes }

/-- One full run: construct a Parser and call parse(), returning its outcome
together with the shared class-level lists as the next run will see them. -/
def runParser (fuel : Nat) (g : Globals) (filename : String) (tokens : List Token) :
    Except PyErr (ParseResult × Globals) :=
  match parseF fuel (initParser g filename tokens) with
  | .error e => .error e
  | .ok (res, st) => .ok (res, { progNodes := st.progNodes, errors := st.errors })

/-- Running the precedence-climbing engine itself on a token sequence:
position the cursor on the first token (as Parser.__init__ does) and call
parseExpression at the lowest precedence.  The fuel is ample for any run
that terminates after consuming its tokens. -/
def runExpression (tokens : List Token) : Except PyErr Node :=
  match parseExpressionF (4 * tokens.length + 4) Precedence.pr_lowest.val
      (initParser Globals.empty "" tokens) with
  | .error e => .error e
  | .ok x => .ok x.1

/-- Convenience constructor for test tokens. -/
def tok (t : TokenType) (kw : String) : Token :=
  { keyword := kw, index := 0, line := 1, tk_type := t, tab := 0 }



/-! ### Invariants of the cursor and the shared lists -/

/-- Auxiliary: an `Except.bind` that succeeded factors through a success of
its first argument. -/
theorem bindOk {α β : Type} {x : Except PyErr α} {f : α → Except PyErr β} {b : β}
    (h : Except.bind x f = Except.ok b) : ∃ a, x = Except.ok a ∧ f a = Except.ok b := by
  cases x with
  | error e => simp [Except.bind] at h
  | ok a => exact ⟨a, rfl, h⟩

/-- The state relation every parser operation preserves: the token list, the
shared errors list and the shared Program.nodes list are untouched, and the
cursor never decreases and never exceeds the token count. -/
def StInv (st st2 : ParserState) : Prop :=
  st2.tokens = st.tokens ∧
  st.tk_index ≤ st2.tk_index ∧
  (st.tk_index ≤ st.tokens.length → st2.tk_index ≤ st.tokens.length) ∧
  st2.progNodes = st.progNodes ∧
  st2.errors = st.errors

theorem StInv.refl (st : ParserState) : StInv st st :=
  ⟨rfl, Nat.le_refl _, fun h => h, rfl, rfl⟩

theorem StInv.trans {a b c : ParserState} (h1 : StInv a b) (h2 : StInv b c) : StInv a c := by
  obtain ⟨t1, m1, b1, p1, e1⟩ := h1
  obtain ⟨t2, m2, b2, p2, e2⟩ := h2
  refine ⟨t2.trans t1, m1.trans m2, ?_, p2.trans p1, e2.trans e1⟩
  intro hle
  have hb : b.tk_index ≤ b.tokens.length := by rw [t1]; exact b1 hle
  have hc := b2 hb
  rw [t1] at hc
  exact hc

theorem advance_stinv (st : ParserState) : StInv st (advance st) := by
  by_cases h : st.tokens.length ≤ st.tk_index
  · rw [advance, dif_pos h]
    exact StInv.refl st
  · rw [advance, dif_neg h]
    exact ⟨rfl, Nat.le_succ _, fun _ => by simp; omega, rfl, rfl⟩

theorem expect_stinv {tokenType : TokenType} {st st2 : ParserState}
    (h : expect tokenType st = .ok st2) : StInv st st2 := by
  cases hn : nextToken st with
  | none =>
    simp only [expect, hn] at h
    exact Except.noConfusion h
  | some t =>
    simp only [expect, hn] at h
    split at h <;> (injection h with h1; subst h1; exact advance_stinv st)

/-- The five mutually recursive pieces of the expression engine all satisfy
`StInv` whenever they return. -/
theorem exprInvAll (fuel : Nat) :
    (∀ precedence st n st2,
        parseExpressionF fuel precedence st = .ok (n, st2) → StInv st st2)
  ∧ (∀ precedence left st n st2,
        climbF fuel precedence left st = .ok (n, st2) → StInv st st2)
  ∧ (∀ st left n st2,
        parseBinaryOperationF fuel st left = .ok (n, st2) → StInv st st2)
  ∧ (∀ st n st2,
        parseGroupedExpressionF fuel st = .ok (n, st2) → StInv st st2)
  ∧ (∀ st n st2,
        parsePrefixExpressionF fuel st = .ok (n, st2) → StInv st st2) := by
  induction fuel with
  | zero =>
    refine ⟨?_, ?_, ?_, ?_, ?_⟩
    · intro _ _ _ _ h; simp [parseExpressionF] at h
    · intro _ _ _ _ _ h; simp [climbF] at h
    · intro _ _ _ _ h; simp [parseBinaryOperationF] at h
    · intro _ _ _ h; simp [parseGroupedExpressionF] at h
    · intro _ _ _ h; simp [parsePrefixExpressionF] at h
  | succ f ih =>
    obtain ⟨ihE, ihC, ihB, ihG, ihP⟩ := ih
    refine ⟨?_, ?_, ?_, ?_, ?_⟩
    · -- parseExpressionF
      intro precedence st n st2 h
      cases hct : st.current_token with
      | none =>
        simp only [parseExpressionF, hct] at h
        exact Except.noConfusion h
      | some ct =>
        simp only [parseExpressionF, hct] at h
        obtain ⟨⟨left, st1⟩, hprim, hclimb⟩ := bindOk h
        have h1 : StInv st st1 := by
          split at hprim
          · cases hpi : parseInteger st <;> rw [hpi] at hprim
            · simp at hprim
            · injection hprim with h2
              injection h2 with h3 h4
              subst h4; exact StInv.refl st
          · split at hprim
            · cases hpi : parseString st <;> rw [hpi] at hprim
              · simp at hprim
              · injection hprim with h2
                injection h2 with h3 h4
                subst h4; exact StInv.refl st
            · split at hprim
              · cases hpi : parseBool st <;> rw [hpi] at hprim
                · simp at hprim
                · injection hprim with h2
                  injection h2 with h3 h4
                  subst h4; exact StInv.refl st
              · split at hprim
                · cases hpi : parseIdentifier st <;> rw [hpi] at hprim
                  · simp at hprim
                  · injection hprim with h2
                    injection h2 with h3 h4
                    subst h4; exact StInv.refl st
                · split at hprim
                  · exact ihG _ _ _ hprim
                  · split at hprim
                    · exact ihP _ _ _ hprim
                    · simp at hprim
        exact h1.trans (ihC _ _ _ _ _ hclimb)
    · -- climbF
      intro precedence left st n st2 h
      simp only [climbF] at h
      split at h
      · obtain ⟨⟨left2, stB⟩, hb, hc⟩ := bindOk h
        exact ((advance_stinv st).trans (ihB _ _ _ _ hb)).trans (ihC _ _ _ _ _ hc)
      · injection h with h1
        injection h1 with h2 h3
        subst h3; exact StInv.refl st
    · -- parseBinaryOperationF
      intro st left n st2 h
      cases hct : st.current_token with
      | none =>
        simp only [parseBinaryOperationF, hct] at h
        exact Except.noConfusion h
      | some ct =>
        simp only [parseBinaryOperationF, hct] at h
        cases hpm : precedenceMap ct.tk_type <;> rw [hpm] at h
        · simp at h
        · obtain ⟨⟨r, stB⟩, he, hk⟩ := bindOk h
          injection hk with h2
          injection h2 with h3 h4
          subst h4
          exact (advance_stinv st).trans (ihE _ _ _ _ he)
    · -- parseGroupedExpressionF
      intro st n st2 h
      simp only [parseGroupedExpressionF] at h
      obtain ⟨⟨nd, stB⟩, he, hrest⟩ := bindOk h
      cases hx : expect TokenType.tk_r_paren stB <;> rw [hx] at hrest
      · simp at hrest
      · injection hrest with h2
        injection h2 with h3 h4
        subst h4
        exact ((advance_stinv st).trans (ihE _ _ _ _ he)).trans (expect_stinv hx)
    · -- parsePrefixExpressionF
      intro st n st2 h
      cases hct : st.current_token with
      | none =>
        simp only [parsePrefixExpressionF, hct] at h
        exact Except.noConfusion h
      | some ct =>
        simp only [parsePrefixExpressionF, hct] at h
        obtain ⟨⟨r, stB⟩, he, hk⟩ := bindOk h
        injection hk with h2
        injection h2 with h3 h4
        subst h4
        exact (advance_stinv st).trans (ihE _ _ _ _ he)



/-- parseVariableReassignment never returns normally: every path raises
AttributeError (either on an unset current_token or on the nonexistent
`Precedence.pr_lowestr`). -/
theorem reassign_never_ok (st : ParserState) (x : Node × ParserState) :
    parseVariableReassignmentF st ≠ .ok x := by
  intro h
  cases hct : st.current_token <;>
    simp only [parseVariableReassignmentF, hct] at h <;>
    exact Except.noConfusion h

theorem decl_stinv {fuel : Nat} {st : ParserState} {n : Node} {st2 : ParserState}
    (h : parseVariableDeclarationF fuel st = .ok (n, st2)) : StInv st st2 := by
  cases hct : st.current_token with
  | none =>
    simp only [parseVariableDeclarationF, hct] at h
    exact Except.noConfusion h
  | some varType =>
    simp only [parseVariableDeclarationF, hct] at h
    cases hx : expect TokenType.tk_identifier st with
    | error e =>
      simp only [hx] at h
      exact Except.noConfusion h
    | ok st1 =>
      simp only [hx] at h
      cases hc1 : st1.current_token with
      | none =>
        simp only [hc1] at h
        exact Except.noConfusion h
      | some nameTok =>
        simp only [hc1] at h
        split at h
        · injection h with h1
          injection h1 with h2 h3
          subst h3
          exact expect_stinv hx
        · obtain ⟨⟨v, stB⟩, he, hk⟩ := bindOk h
          injection hk with h2
          injection h2 with h3 h4
          subst h4
          exact (((expect_stinv hx).trans (advance_stinv st1)).trans
            (advance_stinv (advance st1))).trans ((exprInvAll fuel).1 _ _ _ _ he)

theorem statement_stinv {fuel : Nat} {st : ParserState} {n : Node} {st2 : ParserState}
    (h : parseStatementF fuel st = .ok (n, st2)) : StInv st st2 := by
  cases hct : st.current_token with
  | none =>
    simp only [parseStatementF, hct] at h
    exact Except.noConfusion h
  | some ct =>
    simp only [parseStatementF, hct] at h
    split at h
    · obtain ⟨st1, hp, hr⟩ := bindOk h
      exact absurd hr (reassign_never_ok _ _)
    · split at h
      · exact decl_stinv h
      · split at h
        · injection h with h1; injection h1 with h2 h3; subst h3; exact StInv.refl st
        · split at h
          · injection h with h1; injection h1 with h2 h3; subst h3; exact StInv.refl st
          · split at h
            · injection h with h1; injection h1 with h2 h3; subst h3; exact StInv.refl st
            · split at h
              · injection h with h1; injection h1 with h2 h3; subst h3; exact StInv.refl st
              · split at h
                · injection h with h1; injection h1 with h2 h3; subst h3; exact StInv.refl st
                · exact Except.noConfusion h

/-- The relation the top-level parse loop preserves: like `StInv`, except that
the shared Program.nodes list is extended (in order) by the statements parsed. -/
def LoopInv (st st2 : ParserState) : Prop :=
  st2.tokens = st.tokens ∧
  st.tk_index ≤ st2.tk_index ∧
  (st.tk_index ≤ st.tokens.length → st2.tk_index ≤ st.tokens.length) ∧
  st2.errors = st.errors ∧
  ∃ ns, st2.progNodes = st.progNodes ++ ns

theorem loop_stinv (fuel : Nat) :
    ∀ st st2, parseLoopF fuel st = .ok st2 → LoopInv st st2 := by
  induction fuel with
  | zero =>
    intro st st2 h
    exact Except.noConfusion h
  | succ f ih =>
    intro st st2 h
    simp only [parseLoopF] at h
    split at h
    · obtain ⟨⟨node, stB⟩, hs, hloop⟩ := bindOk h
      have h1 : StInv st stB := statement_stinv hs
      set stC : ParserState := advance { stB with progNodes := stB.progNodes ++ [node] } with hstC
      have h2 : StInv { stB with progNodes := stB.progNodes ++ [node] } stC :=
        advance_stinv _
      have h3 : LoopInv stC st2 := ih _ _ hloop
      obtain ⟨t1, m1, b1, p1, e1⟩ := h1
      obtain ⟨t2, m2, b2, p2, e2⟩ := h2
      obtain ⟨t3, m3, b3, e3, ns, hp3⟩ := h3
      refine ⟨by simp_all, ?_, ?_, by simp_all, ?_⟩
      · calc st.tk_index ≤ stB.tk_index := m1
          _ ≤ stC.tk_index := m2
          _ ≤ st2.tk_index := m3
      · intro hle
        have hB : stB.tk_index ≤ st.tokens.length := b1 hle
        have hBb : ({ stB with progNodes := stB.progNodes ++ [node] } : ParserState).tk_index
            ≤ ({ stB with progNodes := stB.progNodes ++ [node] } : ParserState).tokens.length := by
          simpa [t1] using hB
        have hC := b2 hBb
        have hCC : stC.tk_index ≤ stC.tokens.length := by simpa [t2] using hC
        have := b3 hCC
        simp only [t2] at this
        simpa [t1] using this
      · refine ⟨[node] ++ ns, ?_⟩
        have h4 : stC.progNodes = stB.progNodes ++ [node] := by
          rw [hstC]
          have h5 := (advance_stinv { stB with progNodes := stB.progNodes ++ [node] }).2.2.2.1
          simpa using h5
        rw [hp3, h4, p1]
        simp
    · injection h with h1
      subst h1
      exact ⟨rfl, Nat.le_refl _, fun hh => hh, rfl, [], by simp⟩



/-! ### A concrete input on which the parser never terminates -/

/-- The token sequence  x + ( (  : an identifier-led statement whose
right-hand side ends in two opening parentheses. -/
def toks8 : List Token :=
  [tok .tk_identifier "x", tok .tk_plus "+", tok .tk_l_paren "(", tok .tk_l_paren "("]

/-- The parser state right after Parser.__init__ on `toks8`. -/
def st8 : ParserState := initParser Globals.empty "f" toks8

/-- After the climbing loop advances onto the +. -/
def stA8 : ParserState := advance st8

/-- After parseBinaryOperation advances onto the first (. -/
def stB8 : ParserState := advance stA8

/-- After parseGroupedExpression advances onto the second, final (.  Here
the cursor equals the token count, so every further advance is a no-op
while current_token stays an opening parenthesis: parseGroupedExpression
and parseExpression call each other for ever. -/
def badSt8 : ParserState := advance stB8

/-- The cycle: at `badSt8` the expression engine makes no progress, for any
amount of fuel. -/
theorem badSt8_loops (fuel : Nat) :
    (∀ precedence, parseExpressionF fuel precedence badSt8 = .error .outOfFuel)
    ∧ parseGroupedExpressionF fuel badSt8 = .error .outOfFuel := by
  induction fuel with
  | zero => exact ⟨fun _ => rfl, rfl⟩
  | succ f ih =>
    constructor
    · intro precedence
      have hstep : parseExpressionF (f + 1) precedence badSt8
          = Except.bind (parseGroupedExpressionF f badSt8)
              (fun x => climbF f precedence x.1 x.2) := rfl
      rw [hstep, ih.2]
      rfl
    · have hstep : parseGroupedExpressionF (f + 1) badSt8
          = Except.bind (parseExpressionF f Precedence.pr_lowest.val badSt8)
              (fun x =>
                match expect TokenType.tk_r_paren x.2 with
                | .error e => .error e
                | .ok st3 => .ok (x.1, st3)) := rfl
      rw [hstep, ih.1]
      rfl

theorem stB8_expr_loops (fuel : Nat) :
    parseExpressionF fuel Precedence.pr_sum.val stB8 = .error .outOfFuel := by
  cases fuel with
  | zero => rfl
  | succ g =>
    have hstep : parseExpressionF (g + 1) Precedence.pr_sum.val stB8
        = Except.bind (parseGroupedExpressionF g stB8)
            (fun x => climbF g Precedence.pr_sum.val x.1 x.2) := rfl
    have hg : parseGroupedExpressionF g stB8 = .error .outOfFuel := by
      cases g with
      | zero => rfl
      | succ k =>
        have hstep2 : parseGroupedExpressionF (k + 1) stB8
            = Except.bind (parseExpressionF k Precedence.pr_lowest.val badSt8)
                (fun x =>
                  match expect TokenType.tk_r_paren x.2 with
                  | .error e => .error e
                  | .ok st3 => .ok (x.1, st3)) := rfl
        rw [hstep2, (badSt8_loops k).1]
        rfl
    rw [hstep, hg]
    rfl

theorem stA8_binop_loops (fuel : Nat) :
    parseBinaryOperationF fuel stA8 (Node.Identifier "x") = .error .outOfFuel := by
  cases fuel with
  | zero => rfl
  | succ g =>
    have hstep : parseBinaryOperationF (g + 1) stA8 (Node.Identifier "x")
        = Except.bind (parseExpressionF g Precedence.pr_sum.val stB8)
            (fun x => .ok (.BinaryOperation (Node.Identifier "x") "+" x.1, x.2)) := rfl
    rw [hstep, stB8_expr_loops g]
    rfl

theorem st8_climb_loops (fuel : Nat) :
    climbF fuel Precedence.pr_lowest.val (Node.Identifier "x") st8 = .error .outOfFuel := by
  cases fuel with
  | zero => rfl
  | succ g =>
    have hstep : climbF (g + 1) Precedence.pr_lowest.val (Node.Identifier "x") st8
        = Except.bind (parseBinaryOperationF g stA8 (Node.Identifier "x"))
            (fun x => climbF g Precedence.pr_lowest.val x.1 x.2) := rfl
    rw [hstep, stA8_binop_loops g]
    rfl

theorem st8_expr_loops (fuel : Nat) :
    parseExpressionF fuel Precedence.pr_lowest.val st8 = .error .outOfFuel := by
  cases fuel with
  | zero => rfl
  | succ g =>
    have hstep : parseExpressionF (g + 1) Precedence.pr_lowest.val st8
        = climbF g Precedence.pr_lowest.val (Node.Identifier "x") st8 := rfl
    rw [hstep]
    exact st8_climb_loops g

theorem st8_statement_loops (fuel : Nat) :
    parseStatementF fuel st8 = .error .outOfFuel := by
  have hstep : parseStatementF fuel st8
      = Except.bind
          (Except.bind (parseExpressionF fuel Precedence.pr_lowest.val st8)
            (fun x => Except.ok x.2))
          (fun st1 => parseVariableReassignmentF st1) := rfl
  rw [hstep, st8_expr_loops fuel]
  rfl

theorem st8_loop_loops (fuel : Nat) :
    parseLoopF fuel st8 = .error .outOfFuel := by
  cases fuel with
  | zero => rfl
  | succ g =>
    have hstep : parseLoopF (g + 1) st8
        = Except.bind (parseStatementF g st8)
            (fun x => parseLoopF g
              (advance { x.2 with progNodes := x.2.progNodes ++ [x.1] })) := rfl
    rw [hstep, st8_statement_loops g]
    rfl



/-! ### Supporting concrete inputs for the claims -/

/-- A parser state whose next (not yet consumed) token is an integer token,
used to exercise `expect` with a mismatching expected tag. -/
def mmSt : ParserState :=
  { tk_index := 0, filename := "", tokens := [tok .tk_int "6"],
    errors := [], current_token := none, progNodes := [] }

/-- The state `expect` leaves behind on `mmSt`: advanced by one, errors
untouched. -/
def mmStA : ParserState :=
  { tk_index := 1, filename := "", tokens := [tok .tk_int "6"],
    errors := [], current_token := some (tok .tk_int "6"), progNodes := [] }

/-- A sample diagnostic, shaped as Parser.error would build one. -/
def errSample : PEError :=
  { loc := { line := 1, index := 0, filename := "f", codeBlock := "" },
    title := "error code str", message := "m", hint := "error code hint",
    code := "E001" }

/-- A parser over an empty token stream whose shared errors list already
holds one diagnostic (the errors list is a class attribute, so a prior
Parser instance can have put it there). -/
def stErr : ParserState :=
  { tk_index := 0, filename := "f", tokens := [], errors := [errSample],
    current_token := none, progNodes := [] }

/-- A state positioned on a minus operator, with a lowest-precedence token
after it. -/
def wSt : ParserState :=
  initParser Globals.empty "" [tok .tk_minus "-", tok .tk_int "2"]

/-- The token stream of the statement  int <name> = <value>. -/
def declToks (nm v : String) : List Token :=
  [tok .tk_int "int", tok .tk_identifier nm, tok .tk_assign "=", tok .tk_int v]

/-- The declaration node that parsing `declToks nm v` produces. -/
def declNode (nm v : String) : Node :=
  .VariableDeclaration (tok .tk_int "int") nm (some (.IntegerLiteral v))

/-! ### The claims -/

/-- C1: the precedence-climbing engine parses "1 + 2 * 3" (integer-literal
tokens, i.e. the tk_int-tagged tokens its literal branch accepts, with + and
*) to a tree rendering "(1 + (2 * 3))", and "1 * 2 + 3" to one rendering
"((1 * 2) + 3)"; the precedence map sends the multiplicative operators to a
strictly higher level than the additive ones. -/
theorem precedence_law :
    (runExpression [tok .tk_int "1", tok .tk_plus "+", tok .tk_int "2",
        tok .tk_asterisk "*", tok .tk_int "3"]).map render = .ok "(1 + (2 * 3))"
  ∧ (runExpression [tok .tk_int "1", tok .tk_asterisk "*", tok .tk_int "2",
        tok .tk_plus "+", tok .tk_int "3"]).map render = .ok "((1 * 2) + 3)"
  ∧ precedenceMap TokenType.tk_plus = some Precedence.pr_sum
  ∧ precedenceMap TokenType.tk_minus = some Precedence.pr_sum
  ∧ precedenceMap TokenType.tk_asterisk = some Precedence.pr_mul
  ∧ precedenceMap TokenType.tk_divide = some Precedence.pr_mul
  ∧ Precedence.pr_sum.val < Precedence.pr_mul.val :=
  ⟨rfl, rfl, rfl, rfl, rfl, rfl, by decide⟩

/-- C2: equal-precedence chains group to the left — "1 - 2 - 3" renders
"((1 - 2) - 3)" and "1 - 2 + 3 - 4" renders "(((1 - 2) + 3) - 4)" — and the
mechanism is as claimed: parseBinaryOperation re-enters parseExpression on
the right-hand side at the operator's own precedence, and the climbing loop
returns immediately when the next token's precedence is not strictly
greater than the minimum. -/
theorem left_associativity :
    (runExpression [tok .tk_int "1", tok .tk_minus "-", tok .tk_int "2",
        tok .tk_minus "-", tok .tk_int "3"]).map render = .ok "((1 - 2) - 3)"
  ∧ (runExpression [tok .tk_int "1", tok .tk_minus "-", tok .tk_int "2",
        tok .tk_plus "+", tok .tk_int "3", tok .tk_minus "-", tok .tk_int "4"]).map render
      = .ok "(((1 - 2) + 3) - 4)"
  ∧ (∀ fuel left st ct currentPrecedence,
        st.current_token = some ct →
        precedenceMap ct.tk_type = some currentPrecedence →
        parseBinaryOperationF (fuel + 1) st left
          = Except.bind (parseExpressionF fuel currentPrecedence.val (advance st))
              (fun x => .ok (.BinaryOperation left ct.keyword x.1, x.2)))
  ∧ (∀ fuel precedence left st, ¬ (nextPrecedence st).val > precedence →
        climbF (fuel + 1) precedence left st = .ok (left, st)) := by
  refine ⟨rfl, rfl, ?_, ?_⟩
  · intro fuel left st ct currentPrecedence h1 h2
    simp only [parseBinaryOperationF, h1, h2]
  · intro fuel precedence left st h
    simp only [climbF, if_neg h]

/-- Witness for C2: the two general components applied at a concrete state
positioned on a minus token (whose next token has no climbable
precedence). -/
theorem left_associativity_witness :
    (parseBinaryOperationF 4 wSt (Node.IntegerLiteral "1")
      = Except.bind (parseExpressionF 3 Precedence.pr_sum.val (advance wSt))
          (fun x => .ok (.BinaryOperation (Node.IntegerLiteral "1")
            (tok .tk_minus "-").keyword x.1, x.2)))
  ∧ climbF 4 Precedence.pr_mul.val (Node.IntegerLiteral "1") wSt
      = .ok (Node.IntegerLiteral "1", wSt) :=
  ⟨left_associativity.2.2.1 3 (Node.IntegerLiteral "1") wSt (tok .tk_minus "-")
      Precedence.pr_sum rfl rfl,
   left_associativity.2.2.2 3 Precedence.pr_mul.val (Node.IntegerLiteral "1") wSt
      (by decide)⟩

/-- C3: statement dispatch on identifiers is broken — whether or not the
token after the identifier is an assignment operator, parseStatement ends
in parseVariableReassignment (the branch has no else), which raises
AttributeError on the nonexistent `Precedence.pr_lowestr`; in particular
"x + 1" does NOT return an expression statement. -/
theorem identifier_dispatch_crash :
    parseStatementF 16 (initParser Globals.empty "f"
        [tok .tk_identifier "x", tok .tk_plus "+", tok .tk_int "1"])
      = .error .attributeError
  ∧ parseStatementF 16 (initParser Globals.empty "f"
        [tok .tk_identifier "x", tok .tk_assign "=", tok .tk_int "5"])
      = .error .attributeError :=
  ⟨rfl, rfl⟩

/-- C4: parsing "x = 5 + 1" does not produce a VariableReassignment node:
parseVariableReassignment evaluates `Precedence.pr_lowestr`, which the
Precedence enum does not define, so the statement raises AttributeError. -/
theorem reassignment_crash :
    parseStatementF 16 (initParser Globals.empty "f"
        [tok .tk_identifier "x", tok .tk_assign "=", tok .tk_int "5",
         tok .tk_plus "+", tok .tk_int "1"])
      = .error .attributeError := rfl

/-- C5: an uninitialized declaration is produced when a token follows the
name and is not tk_assign ("int x +"), but in the claimed last-token case
("int x") the guard `if self.nextToken() and ...` is falsy, the initialized
path runs with no-op advances, and the name token itself is re-parsed as
the initializer: the node carries `some (Identifier "x")`, not no value. -/
theorem uninitialized_declaration :
    (parseVariableDeclarationF 16 (initParser Globals.empty "f"
        [tok .tk_int "int", tok .tk_identifier "x", tok .tk_plus "+"])).map Prod.fst
      = .ok (.VariableDeclaration (tok .tk_int "int") "x" none)
  ∧ (parseVariableDeclarationF 16 (initParser Globals.empty "f"
        [tok .tk_int "int", tok .tk_identifier "x"])).map Prod.fst
      = .ok (.VariableDeclaration (tok .tk_int "int") "x" (some (.Identifier "x"))) :=
  ⟨rfl, rfl⟩

/-- C6: on a tag mismatch (next token tk_int, expected tk_r_paren) expect
records nothing — the errors list stays empty — and silently advances onto
the mismatching token, exactly as if it had matched. -/
theorem expect_silent_mismatch :
    (tok .tk_int "6").tk_type ≠ TokenType.tk_r_paren
  ∧ nextToken mmSt = some (tok .tk_int "6")
  ∧ mmSt.errors = []
  ∧ expect TokenType.tk_r_paren mmSt = .ok mmStA
  ∧ mmStA.errors = []
  ∧ mmStA.tk_index = mmSt.tk_index + 1 :=
  ⟨by decide, rfl, rfl, rfl, rfl, rfl⟩

/-- C7: when parse() returns normally, its result is failureExit over
exactly the recorded diagnostics with exit status 1 when the errors list is
non-empty, and the Program node over the accumulated statement list (an
in-order extension of the initial shared nodes list) when it is empty; the
loop itself never adds diagnostics. -/
theorem parse_outcome (fuel : Nat) (st : ParserState) (res : ParseResult)
    (stF : ParserState) (h : parseF fuel st = .ok (res, stF)) :
    (stF.errors ≠ [] → res = .failureExit stF.errors 1)
    ∧ (stF.errors = [] → res = .success (Node.Program stF.progNodes))
    ∧ stF.errors = st.errors
    ∧ ∃ ns, stF.progNodes = st.progNodes ++ ns := by
  obtain ⟨stL, hl, hres⟩ := bindOk h
  obtain ⟨t1, m1, b1, e1, ns, hp⟩ := loop_stinv fuel st stL hl
  by_cases hc : stL.errors.length ≠ 0
  · rw [if_pos hc] at hres
    injection hres with h1
    injection h1 with h2 h3
    subst h2
    subst h3
    exact ⟨fun _ => rfl, fun hE => absurd (by simp [hE]) hc, e1, ns, hp⟩
  · rw [if_neg hc] at hres
    injection hres with h1
    injection h1 with h2 h3
    subst h2
    subst h3
    have hE : stL.errors = [] := List.length_eq_zero.mp (not_not.mp hc)
    exact ⟨fun hne => absurd hE hne, fun _ => rfl, e1, ns, hp⟩

/-- Witness for C7: a run over an empty token stream whose shared errors
list already holds a diagnostic ends in failureExit with that diagnostic
and exit code 1. -/
theorem parse_outcome_witness :
    (stErr.errors ≠ [] →
        ParseResult.failureExit [errSample] 1 = .failureExit stErr.errors 1)
    ∧ (stErr.errors = [] →
        ParseResult.failureExit [errSample] 1 = .success (Node.Program stErr.progNodes))
    ∧ stErr.errors = stErr.errors
    ∧ ∃ ns, stErr.progNodes = stErr.progNodes ++ ns :=
  parse_outcome 1 stErr (.failureExit [errSample] 1) stErr rfl

/-- C8: parse() does NOT terminate on every finite token sequence: on
"x + ( (" the trailing parseGroupedExpression advances at end-of-stream (a
no-op) and re-enters parseExpression on the same opening-parenthesis
current token, so the run exhausts any amount of fuel (in Python, an
unbounded recursion).  The source itself warns about this: the TODO above
advance notes that failing to advance "could lead to an infinite loop". -/
theorem parse_nonterminating (fuel : Nat) :
    parseF fuel (initParser Globals.empty "f" toks8) = .error .outOfFuel := by
  have hstep : parseF fuel (initParser Globals.empty "f" toks8)
      = Except.bind (parseLoopF fuel st8)
          (fun stFinal =>
            if stFinal.errors.length ≠ 0 then
              .ok (.failureExit stFinal.errors 1, stFinal)
            else
              .ok (.success (.Program stFinal.progNodes), stFinal)) := rfl
  rw [hstep, st8_loop_loops fuel]
  rfl

/-- C9: two runs are NOT independent: Program.nodes is a class attribute,
so the second run's Program contains the first run's statement as well.
Parsing "int y = 6" from a fresh interpreter yields a one-node Program,
but after a run of "int x = 5" the same parse yields a two-node Program. -/
theorem shared_state_between_runs :
    runParser 32 Globals.empty "a" (declToks "x" "5")
      = .ok (.success (.Program [declNode "x" "5"]),
             { progNodes := [declNode "x" "5"], errors := [] })
  ∧ runParser 32 Globals.empty "b" (declToks "y" "6")
      = .ok (.success (.Program [declNode "y" "6"]),
             { progNodes := [declNode "y" "6"], errors := [] })
  ∧ runParser 32 { progNodes := [declNode "x" "5"], errors := [] } "b" (declToks "y" "6")
      = .ok (.success (.Program [declNode "x" "5", declNode "y" "6"]),
             { progNodes := [declNode "x" "5", declNode "y" "6"], errors := [] })
  ∧ Node.Program [declNode "x" "5", declNode "y" "6"] ≠ Node.Program [declNode "y" "6"] := by
  refine ⟨rfl, rfl, rfl, ?_⟩
  intro h
  injection h with h1
  have h2 := congrArg List.length h1
  simp at h2

/-- C10: the cursor invariant — advance, expect, parseExpression,
parseStatement and parse keep tk_index (a Nat, so never below 0) at most
the token count and never decrease it, and nextToken reads the token at
tk_index when in range and returns none otherwise. -/
theorem cursor_invariant :
    (∀ st : ParserState,
        st.tk_index ≤ (advance st).tk_index
        ∧ (advance st).tokens = st.tokens
        ∧ (st.tk_index ≤ st.tokens.length → (advance st).tk_index ≤ st.tokens.length))
  ∧ (∀ st : ParserState,
        (st.tk_index < st.tokens.length → nextToken st = st.tokens[st.tk_index]?)
        ∧ (st.tokens.length ≤ st.tk_index → nextToken st = none))
  ∧ (∀ tokenType st st2, expect tokenType st = .ok st2 →
        st.tk_index ≤ st2.tk_index ∧ st2.tokens = st.tokens
        ∧ (st.tk_index ≤ st.tokens.length → st2.tk_index ≤ st.tokens.length))
  ∧ (∀ fuel precedence st n st2, parseExpressionF fuel precedence st = .ok (n, st2) →
        st.tk_index ≤ st2.tk_index ∧ st2.tokens = st.tokens
        ∧ (st.tk_index ≤ st.tokens.length → st2.tk_index ≤ st.tokens.length))
  ∧ (∀ fuel st n st2, parseStatementF fuel st = .ok (n, st2) →
        st.tk_index ≤ st2.tk_index ∧ st2.tokens = st.tokens
        ∧ (st.tk_index ≤ st.tokens.length → st2.tk_index ≤ st.tokens.length))
  ∧ (∀ fuel st r st2, parseF fuel st = .ok (r, st2) →
        st.tk_index ≤ st2.tk_index ∧ st2.tokens = st.tokens
        ∧ (st.tk_index ≤ st.tokens.length → st2.tk_index ≤ st.tokens.length)) := by
  refine ⟨?_, ?_, ?_, ?_, ?_, ?_⟩
  · intro st
    obtain ⟨t, m, b, _, _⟩ := advance_stinv st
    exact ⟨m, t, b⟩
  · intro st
    constructor
    · intro hlt
      rw [nextToken, if_pos hlt]
    · intro hge
      rw [nextToken, if_neg (by omega)]
  · intro tokenType st st2 h
    obtain ⟨t, m, b, _, _⟩ := expect_stinv h
    exact ⟨m, t, b⟩
  · intro fuel precedence st n st2 h
    obtain ⟨t, m, b, _, _⟩ := (exprInvAll fuel).1 _ _ _ _ h
    exact ⟨m, t, b⟩
  · intro fuel st n st2 h
    obtain ⟨t, m, b, _, _⟩ := statement_stinv h
    exact ⟨m, t, b⟩
  · intro fuel st r st2 h
    obtain ⟨stL, hl, hres⟩ := bindOk h
    obtain ⟨t, m, b, e, _⟩ := loop_stinv fuel st stL hl
    have h3 : st2 = stL := by
      split at hres <;> (injection hres with h1; injection h1 with h4 h5; exact h5.symm)
    subst h3
    exact ⟨m, t, b⟩

/-- Witness for C10: the expect component at the concrete mismatch state. -/
theorem cursor_invariant_witness :
    mmSt.tk_index ≤ mmStA.tk_index ∧ mmStA.tokens = mmSt.tokens
    ∧ (mmSt.tk_index ≤ mmSt.tokens.length → mmStA.tk_index ≤ mmSt.tokens.length) :=
  cursor_invariant.2.2.1 TokenType.tk_r_paren mmSt mmStA rfl

end Peregrine
